import Mathlib

/-!
Verification of the UNO game engine (`src/modules/games/uno.py`).

This file gives a shallow embedding of the engine's data model and of the
operations `uno_start`, `uno_play`, `uno_draw`, `uno_reset`, `uno_status`,
together with the persistence functions `save_games` / `load_games`, and
proves or refutes the specification's claims about them.

Modelling conventions:
* A card is a pair of strings `(color, rank)`, exactly as in the source.
* Python lists used as stacks keep their orientation: the END of the list is
  the top of the stack (`list.pop()` pops the last element, `append` pushes
  at the end).
* Python dicts (`GAMES`, `game["hands"]`, the stats file) are modelled as
  association lists with unique keys; `alistGet`/`alistSet` mirror
  `d.get`/`d[k] = v`.
* `random.shuffle` and the shuffled deck are modelled by passing an explicit
  `shuffle : List Card → List Card` function; theorems that need it assume
  it permutes its input.
* The handler lowercases all arguments on entry (`uno.py` line 412); the
  embedded operations take the already-lowercased tokens, since the
  lowercasing itself is pure argument plumbing.
* Timestamps (`last_active`) are modelled as a `Nat` passed to each mutating
  operation (`datetime.now` at the call site).
* A Python statement that raises an uncaught exception (e.g. `list.pop()` on
  an empty list, `dict[k]` on a missing key) is modelled by a `crashed`
  result carrying the state as mutated up to the raising statement: the
  `log_handler` decorator swallows the exception, and the in-memory `GAMES`
  keeps every mutation already performed.
-/

/-- A card, exactly the `(color, value)` tuple of the source. -/
abbrev Card := String × String

/-- The card colors, `COLORS` in `uno.py` line 165. -/
def COLORS : List String := ["red", "green", "blue", "yellow"]

/-- The number and special cards of a single color, from `create_deck`
(`uno.py` lines 190-195): one "0", two of each 1..9, two of each of
skip/reverse/draw2. -/
def colorCards (c : String) : List Card :=
  (c, "0") ::
    (((List.range 9).map (fun n => [(c, toString (n+1)), (c, toString (n+1))])).flatten
      ++ ((["skip", "reverse", "draw2"].map (fun sp => [(c, sp), (c, sp)])).flatten))

/-- The full 108-card deck before shuffling, from `create_deck`
(`uno.py` lines 176-202): the per-color cards plus four wild and four
wild4 cards.  The shuffle itself is applied by the caller. -/
def create_deck_cards : List Card :=
  (COLORS.map colorCards).flatten
    ++ List.replicate 4 ("wild", "wild") ++ List.replicate 4 ("wild", "wild4")

/-- Association-list lookup, modelling Python `dict.get`. -/
def alistGet {α β : Type} [BEq α] (l : List (α × β)) (k : α) : Option β :=
  (l.find? (fun p => p.1 == k)).map Prod.snd

/-- Association-list update, modelling Python `dict[k] = v`. -/
def alistSet {α β : Type} [BEq α] : List (α × β) → α → β → List (α × β)
  | [], k, v => [(k, v)]
  | (a, b) :: rest, k, v =>
    if a == k then (k, v) :: rest else (a, b) :: alistSet rest k v

/-- Association-list deletion, modelling Python `del d[k]`. -/
def alistRemove {α β : Type} [BEq α] (l : List (α × β)) (k : α) : List (α × β) :=
  l.filter (fun p => p.1 != k)

/-- The hands dict `game["hands"]`: player id to list of cards. -/
abbrev Hands := List (Nat × List Card)

/-- Python `game["hands"].get(uid, [])` (`uno.py` line 431). -/
def handsGet (hs : Hands) (uid : Nat) : List Card :=
  (alistGet hs uid).getD []

/-- Update of one player's hand inside the hands dict. -/
def handsSet (hs : Hands) (uid : Nat) (cs : List Card) : Hands :=
  alistSet hs uid cs

/-- One game session: the dict built by `uno_start` (`uno.py` lines 218-228). -/
structure Game where
  players : List Nat
  hands : Hands
  deck : List Card
  pile : List Card
  current : Nat
  direction : Int
  current_color : Option String
  started : Bool
  last_active : Nat
deriving Repr, DecidableEq

/-- Sum of the sizes of all hands in the session. -/
def handsTotal (hs : Hands) : Nat :=
  (hs.map (fun p => p.2.length)).sum

/-- Total number of cards tracked by a session: deck plus pile plus all
hands.  The conservation property of the spec says this stays 108. -/
def totalCards (g : Game) : Nat :=
  g.deck.length + g.pile.length + handsTotal g.hands

/-- Turn advancement, `advance_turn` (`uno.py` lines 204-209):
`current = (current + direction) % len(players)`.  `Int.emod` with a
positive modulus agrees with Python's `%`. -/
def advance_turn (g : Game) : Game :=
  { g with current := (((g.current : Int) + g.direction).emod (g.players.length : Int)).toNat }

/-- Python `list.pop()`: pops the LAST element; `none` when the list is
empty (where Python raises `IndexError`). -/
def listPop (l : List Card) : Option (Card × List Card) :=
  match l.getLast? with
  | none => none
  | some c => some (c, l.dropLast)

/-- Python `list.remove(x)`: removes the first occurrence. -/
def listRemoveFirst : List Card → Card → List Card
  | [], _ => []
  | x :: xs, c => if x == c then xs else x :: listRemoveFirst xs c

/-- The list comprehension `[deck.pop() for _ in range(n)]`
(`uno.py` lines 463 and 473).  Each iteration pops the top of the deck.
If the deck runs out, Python raises `IndexError` mid-comprehension: the
already-popped cards are discarded but the deck keeps the pops already
performed — modelled by the `(none, rest)` outcome. -/
def popMany : Nat → List Card → Option (List Card) × List Card
  | 0, l => (some [], l)
  | n + 1, l =>
    match listPop l with
    | none => (none, l)
    | some (c, rest) =>
      match popMany n rest with
      | (some cs, rest2) => (some (c :: cs), rest2)
      | (none, rest2) => (none, rest2)

/-- The distinct ways `uno_play` / `uno_draw` can refuse or abort without a
normal result.  The first seven are the explicit error replies of the
source; the `IndexError` kinds are uncaught exceptions swallowed by
`log_handler`, which also leave the session unmutated at the point they
are raised. -/
inductive PlayError
  | notRunning
  | playersIndexError
  | notYourTurn
  | usage
  | colorRequired
  | argIndexError
  | cardNotHeld
  | pileIndexError
  | illegalPlay
deriving Repr, DecidableEq

/-- Result of the session-level part of `uno_play`.
`err`: an early return or pre-mutation exception, session untouched.
`crashed`: an uncaught exception after mutation started (the draw2/wild4
penalty pops), carrying the partially mutated session that stays in
memory.  `won`: the acting player's hand is empty after the play (the
caller records the win and deletes the session).  `ok`: normal play. -/
inductive PlayResult
  | err : PlayError → PlayResult
  | crashed : Game → PlayResult
  | won : Game → PlayResult
  | ok : Game → PlayResult
deriving Repr, DecidableEq

/-- The win check at `uno.py` line 484: `if not hand` where `hand` is the
acting player's (aliased) hand object after all effects. -/
def finish_play (uid : Nat) (g : Game) : PlayResult :=
  if (handsGet g.hands uid).isEmpty then .won g else .ok g

/-- The draw2/wild4 penalty (`uno.py` lines 460-479): advance once to the
victim, pop `n` cards from the deck (NO reshuffle here — unlike
`uno_draw`), extend the victim's hand, advance once more.  A pop from an
exhausted deck or a missing victim hand raises, leaving the partially
mutated state. -/
def draw_penalty (uid : Nat) (n : Nat) (g1 : Game) : PlayResult :=
  let g2 := advance_turn g1
  match g2.players[g2.current]? with
  | none => .crashed g2
  | some nxt =>
    match popMany n g2.deck with
    | (none, deckRest) => .crashed { g2 with deck := deckRest }
    | (some drawn, deckRest) =>
      match alistGet g2.hands nxt with
      | none => .crashed { g2 with deck := deckRest }
      | some hnxt =>
        finish_play uid
          (advance_turn
            { g2 with deck := deckRest, hands := handsSet g2.hands nxt (hnxt ++ drawn) })

/-- The mutation part of `uno_play` (`uno.py` lines 441-492), entered after
every validation has passed: remove the card from the hand, append it to
the pile, set the current color (`chosen_color` for wilds, else the
card's own color, line 444), resolve the special effect, then check for
victory. -/
def play_card (g : Game) (uid : Nat) (card : Card) (chosen_color : String) (now : Nat) :
    PlayResult :=
  let hand1 := listRemoveFirst (handsGet g.hands uid) card
  let g1 : Game :=
    { g with
      hands := handsSet g.hands uid hand1,
      pile := g.pile ++ [card],
      current_color := some (if card.1 == "wild" then chosen_color else card.1),
      last_active := now }
  if card.2 == "skip" then
    finish_play uid (advance_turn (advance_turn g1))
  else if card.2 == "reverse" then
    let g2 := { g1 with direction := g1.direction * (-1) }
    let g3 := if g2.players.length == 2 then advance_turn g2 else g2
    finish_play uid (advance_turn g3)
  else if card.2 == "draw2" then
    draw_penalty uid 2 g1
  else if card.2 == "wild4" then
    draw_penalty uid 4 g1
  else
    finish_play uid (advance_turn g1)

/-- The reject condition of the legality check, `uno.py` line 438:
`card[0] != "wild" and card[0] != top_color and card[1] != top_value`,
where `top_color` is the session's `current_color` (line 436) and
`top_value` is the rank of the pile's top card (line 437). -/
def play_rejects (card : Card) (current_color : Option String) (top_value : String) : Bool :=
  card.1 != "wild" && (some card.1 : Option String) != current_color && card.2 != top_value

/-- Validation tail of `uno_play` (`uno.py` lines 431-439): card held,
pile top fetched, legality check; then the mutation part. -/
def check_and_play (g : Game) (uid : Nat) (card : Card) (chosen_color : String) (now : Nat) :
    PlayResult :=
  if !((handsGet g.hands uid).contains card) then .err .cardNotHeld
  else
    match g.pile.getLast? with
    | none => .err .pileIndexError
    | some top =>
      if play_rejects card g.current_color top.2 then .err .illegalPlay
      else play_card g uid card chosen_color now

/-- The session-level body of `uno_play` (`uno.py` lines 403-492), given
the already-lowercased argument tokens.  Validations in source order:
started, caller's turn (`players[current]`, line 409), argument parsing
(lines 412-429; note a single non-wild token hits `args[1]` and raises
`IndexError`), card possession, pile top, legality; only then mutation. -/
def uno_play_core (g : Game) (uid : Nat) (args : List String) (now : Nat) : PlayResult :=
  if !g.started then .err .notRunning
  else
    match g.players[g.current]? with
    | none => .err .playersIndexError
    | some p =>
      if p != uid then .err .notYourTurn
      else
        match args with
        | [] => .err .usage
        | a0 :: rest =>
          if a0 == "wild" || a0 == "wild4" then
            match rest with
            | [] => .err .colorRequired
            | a1 :: _ =>
              if !(COLORS.contains a1) then .err .colorRequired
              else check_and_play g uid ("wild", a0) a1 now
          else
            match rest with
            | [] => .err .argIndexError
            | a1 :: _ => check_and_play g uid (a0, a1) a0 now

/-- The in-memory session store `GAMES` (chat id to session) and, with the
same layout, the deserialized contents of `uno_games.json`. -/
abbrev Games := List (Int × Game)

/-- Per-chat win counters, one entry of the stats file. -/
abbrev ChatStats := List (Nat × Nat)

/-- The stats file `uno_stats.json`: chat id to per-player win counts. -/
abbrev Stats := List (Int × ChatStats)

/-- Session lookup `GAMES.get(cid)`. -/
def gamesGet (games : Games) (cid : Int) : Option Game :=
  alistGet games cid

/-- Session deletion `del GAMES[cid]`. -/
def gamesRemove (games : Games) (cid : Int) : Games :=
  alistRemove games cid

/-- `save_games` (`uno.py` lines 76-105): serializes the whole store to the
file — but returns without writing when there are no games
(`if not GAMES: return`, lines 81-83).  Card pairs and timestamps
round-trip exactly, so the file contents are modelled with the same type
as the store. -/
def save_games (games : Games) (file : Games) : Games :=
  if games.isEmpty then file else games

/-- The load path of `load_games` (`uno.py` lines 38-74) on an existing,
well-formed file: the store becomes the deserialized file contents. -/
def load_games (file : Games) : Games :=
  file

/-- Win-count lookup in the stats file (with the `get(..., 0)` default of
`uno.py` line 488). -/
def statsGet (stats : Stats) (cid : Int) (uid : Nat) : Nat :=
  (alistGet ((alistGet stats cid).getD []) uid).getD 0

/-- The stats increment on a win (`uno.py` lines 486-489):
`stats.setdefault(str(cid), {})` then
`chat_stats[str(uid)] = chat_stats.get(str(uid), 0) + 1`. -/
def statsIncr (stats : Stats) (cid : Int) (uid : Nat) : Stats :=
  let chat := (alistGet stats cid).getD []
  alistSet stats cid (alistSet chat uid ((alistGet chat uid).getD 0 + 1))

/-- Outcome reported by a full `uno_play` invocation. -/
inductive PlayOutcome
  | err : PlayError → PlayOutcome
  | crashed
  | won
  | ok
deriving Repr, DecidableEq

/-- State of the world after a full `uno_play` invocation: the reported
outcome, the in-memory store, the stats file, and the games file. -/
structure FullResult where
  outcome : PlayOutcome
  games : Games
  stats : Stats
  file : Games
deriving Repr, DecidableEq

/-- The full `uno_play` handler (`uno.py` lines 396-502) over the store and
both files.  On an error reply or pre-mutation exception everything is
untouched.  On a crash inside the penalty pops the mutated session stays
in memory but nothing is saved (the exception skips line 494).  On a win
(lines 484-492): stats are incremented and saved, the session is
deleted, and `save_games` runs on the now-smaller store.  On a normal
play the updated store is saved. -/
def uno_play_full (games : Games) (stats : Stats) (file : Games) (cid : Int) (uid : Nat)
    (args : List String) (now : Nat) : FullResult :=
  match gamesGet games cid with
  | none => ⟨.err .notRunning, games, stats, file⟩
  | some g =>
    match uno_play_core g uid args now with
    | .err e => ⟨.err e, games, stats, file⟩
    | .crashed g' => ⟨.crashed, alistSet games cid g', stats, file⟩
    | .won _ =>
      let stats' := statsIncr stats cid uid
      let games' := gamesRemove games cid
      ⟨.won, games', stats', save_games games' file⟩
    | .ok g' =>
      let games' := alistSet games cid g'
      ⟨.ok, games', stats, save_games games' file⟩

/-- Result of `uno_draw`. -/
inductive DrawResult
  | err : PlayError → DrawResult
  | crashed : Game → DrawResult
  | ok : Card → Game → DrawResult
deriving Repr, DecidableEq

/-- The session-level body of `uno_draw` (`uno.py` lines 504-539): started
and turn checks; if the deck is empty, reshuffle — pop the pile's top,
move the remaining pile into the deck, shuffle, keep only the former top
in the pile (lines 520-525); pop one card into the caller's hand; then
advance the turn once. -/
def uno_draw_core (shuffle : List Card → List Card) (g : Game) (uid : Nat) (now : Nat) :
    DrawResult :=
  if !g.started then .err .notRunning
  else
    match g.players[g.current]? with
    | none => .err .playersIndexError
    | some p =>
      if p != uid then .err .notYourTurn
      else
        match (if g.deck.isEmpty then
                 match g.pile.getLast? with
                 | none => none
                 | some last => some { g with deck := shuffle g.pile.dropLast, pile := [last] }
               else some g) with
        | none => .crashed g
        | some g1 =>
          match g1.deck.getLast? with
          | none => .crashed g1
          | some card =>
            match alistGet g1.hands uid with
            | none => .crashed { g1 with deck := g1.deck.dropLast }
            | some h =>
              .ok card
                (advance_turn
                  { g1 with
                    deck := g1.deck.dropLast,
                    hands := handsSet g1.hands uid (h ++ [card]),
                    last_active := now })

/-- The fresh session built by `uno_start` (`uno.py` lines 218-228). -/
def freshSession (shuffle : List Card → List Card) (now : Nat) : Game :=
  { players := []
    hands := []
    deck := shuffle create_deck_cards
    pile := []
    current := 0
    direction := 1
    current_color := none
    started := false
    last_active := now }

/-- `uno_start` (`uno.py` lines 211-239): unconditionally assigns a fresh
session to `GAMES[cid]` — there is no check for an existing session —
then saves.  Returns the new store and file. -/
def uno_start (shuffle : List Card → List Card) (games : Games) (file : Games) (cid : Int)
    (now : Nat) : Games × Games :=
  let games' := alistSet games cid (freshSession shuffle now)
  (games', save_games games' file)

/-- Result of `uno_reset`. -/
structure ResetResult where
  games : Games
  file : Games
  didReset : Bool
deriving Repr, DecidableEq

/-- `uno_reset` (`uno.py` lines 308-326): if the session exists, delete it
and call `save_games` (which skips the write when the store became
empty); otherwise reply that there is nothing to reset. -/
def uno_reset (games : Games) (file : Games) (cid : Int) : ResetResult :=
  if (gamesGet games cid).isSome then
    let games' := gamesRemove games cid
    ⟨games', save_games games' file, true⟩
  else
    ⟨games, file, false⟩

/-- The per-session information `uno_status` reports (`uno.py` lines
328-366); `none` models the "No active game in this chat" reply. -/
structure StatusView where
  playersCount : Nat
  started : Bool
deriving Repr, DecidableEq

/-- `uno_status` restricted to its session lookup: `none` when no session
exists for the chat. -/
def uno_status (games : Games) (cid : Int) : Option StatusView :=
  (gamesGet games cid).map (fun g => ⟨g.players.length, g.started⟩)

/-- The full deck has exactly 108 cards. -/
theorem create_deck_cards_length : create_deck_cards.length = 108 := by decide

/-- The specification's legality predicate, stated from the spec's own words
(§4.1): a candidate card `C` is playable against `top_color` and
`top_rank` iff `C.color == wild` OR `C.color == top_color` OR
`C.rank == top_rank`.  Compared below with the source's reject condition
`play_rejects`. -/
def spec_playable (card : Card) (top_color : String) (top_rank : String) : Bool :=
  card.1 == "wild" || card.1 == top_color || card.2 == top_rank

theorem alistGet_set_self {α β : Type} [BEq α] [LawfulBEq α] (l : List (α × β)) (k : α) (v : β) :
    alistGet (alistSet l k v) k = some v := by
  induction l with
  | nil => simp [alistGet, alistSet, List.find?]
  | cons p rest ih =>
    obtain ⟨a, b⟩ := p
    by_cases h : a == k
    · simp [alistGet, alistSet, List.find?, h]
    · simp only [alistSet, h, if_false, Bool.false_eq_true]
      simpa [alistGet, List.find?, h] using ih

theorem alistGet_remove_self {α β : Type} [BEq α] [LawfulBEq α] (l : List (α × β)) (k : α) :
    alistGet (alistRemove l k) k = none := by
  induction l with
  | nil => simp [alistGet, alistRemove, List.find?]
  | cons p rest ih =>
    obtain ⟨a, b⟩ := p
    by_cases h : a == k
    · have hk : a = k := eq_of_beq h
      simp only [alistRemove, List.filter]
      simp only [hk, bne_self_eq_false]
      exact ih
    · simp only [alistRemove, List.filter, bne, h, Bool.not_false]
      simp only [alistGet, List.find?, h, alistRemove] at ih ⊢
      exact ih

theorem finish_play_ne_err (uid : Nat) (g : Game) (e : PlayError) :
    finish_play uid g ≠ .err e := by
  unfold finish_play
  split <;> simp

theorem draw_penalty_ne_err (uid n : Nat) (g1 : Game) (e : PlayError) :
    draw_penalty uid n g1 ≠ .err e := by
  unfold draw_penalty
  dsimp only
  split
  · simp
  · split
    · simp
    · split
      · simp
      · exact finish_play_ne_err _ _ _

theorem play_card_ne_err (g : Game) (uid : Nat) (card : Card) (chosen : String) (now : Nat)
    (e : PlayError) : play_card g uid card chosen now ≠ .err e := by
  unfold play_card
  dsimp only
  split
  · exact finish_play_ne_err _ _ _
  · split
    · exact finish_play_ne_err _ _ _
    · split
      · exact draw_penalty_ne_err _ _ _ _
      · split
        · exact draw_penalty_ne_err _ _ _ _
        · exact finish_play_ne_err _ _ _

theorem finish_play_won (uid : Nat) (g g' : Game) (h : finish_play uid g = .won g') :
    (handsGet g'.hands uid).isEmpty = true := by
  unfold finish_play at h
  split at h
  · cases h
    assumption
  · cases h

theorem finish_play_cases (uid : Nat) (g : Game) :
    finish_play uid g = .won g ∨ finish_play uid g = .ok g := by
  unfold finish_play
  split
  · exact Or.inl rfl
  · exact Or.inr rfl

theorem draw_penalty_won (uid n : Nat) (g1 : Game) (g' : Game)
    (h : draw_penalty uid n g1 = .won g') : (handsGet g'.hands uid).isEmpty = true := by
  unfold draw_penalty at h
  dsimp only at h
  split at h
  · cases h
  · split at h
    · cases h
    · split at h
      · cases h
      · exact finish_play_won _ _ _ h

theorem play_card_won (g : Game) (uid : Nat) (card : Card) (chosen : String) (now : Nat)
    (g' : Game) (h : play_card g uid card chosen now = .won g') :
    (handsGet g'.hands uid).isEmpty = true := by
  unfold play_card at h
  dsimp only at h
  split at h
  · exact finish_play_won _ _ _ h
  · split at h
    · exact finish_play_won _ _ _ h
    · split at h
      · exact draw_penalty_won _ _ _ _ h
      · split at h
        · exact draw_penalty_won _ _ _ _ h
        · exact finish_play_won _ _ _ h

theorem check_and_play_won (g : Game) (uid : Nat) (card : Card) (chosen : String) (now : Nat)
    (g' : Game) (h : check_and_play g uid card chosen now = .won g') :
    (handsGet g'.hands uid).isEmpty = true := by
  unfold check_and_play at h
  split at h
  · cases h
  · split at h
    · cases h
    · split at h
      · cases h
      · exact play_card_won _ _ _ _ _ _ h

theorem uno_play_core_won (g : Game) (uid : Nat) (args : List String) (now : Nat) (g' : Game)
    (h : uno_play_core g uid args now = .won g') : (handsGet g'.hands uid).isEmpty = true := by
  unfold uno_play_core at h
  split at h
  · cases h
  · split at h
    · cases h
    · split at h
      · cases h
      · split at h
        · cases h
        · split at h
          · split at h
            · cases h
            · split at h
              · cases h
              · exact check_and_play_won _ _ _ _ _ _ h
          · split at h
            · cases h
            · exact check_and_play_won _ _ _ _ _ _ h

theorem play_rejects_eq_not_spec (card : Card) (tc pv : String) :
    play_rejects card (some tc) pv = !(spec_playable card tc pv) := by
  obtain ⟨c, v⟩ := card
  by_cases h1 : c = "wild" <;> by_cases h2 : c = tc <;> by_cases h3 : v = pv <;>
    simp [play_rejects, spec_playable, h1, h2, h3, bne]

theorem uno_play_core_nonwild
    (g : Game) (uid : Nat) (now : Nat) (c v pc pv : String)
    (hst : g.started = true)
    (hturn : g.players[g.current]? = some uid)
    (hc1 : c ≠ "wild") (hc2 : c ≠ "wild4")
    (hheld : (handsGet g.hands uid).contains (c, v) = true)
    (htop : g.pile.getLast? = some (pc, pv)) :
    uno_play_core g uid [c, v] now =
      if play_rejects (c, v) g.current_color pv
      then PlayResult.err PlayError.illegalPlay
      else play_card g uid (c, v) c now := by
  have e1 : (c == "wild") = false := beq_eq_false_iff_ne.mpr hc1
  have e2 : (c == "wild4") = false := beq_eq_false_iff_ne.mpr hc2
  have hmem : (c, v) ∈ handsGet g.hands uid := by simpa using hheld
  unfold uno_play_core check_and_play
  simp [hst, hturn, e1, e2, hmem, htop]

theorem uno_play_core_wild
    (g : Game) (uid : Nat) (now : Nat) (w a pc pv : String)
    (hst : g.started = true)
    (hturn : g.players[g.current]? = some uid)
    (hw : w = "wild" ∨ w = "wild4")
    (hcol : COLORS.contains a = true)
    (hheld : (handsGet g.hands uid).contains ("wild", w) = true)
    (htop : g.pile.getLast? = some (pc, pv)) :
    uno_play_core g uid [w, a] now = play_card g uid ("wild", w) a now := by
  have hrej : play_rejects ("wild", w) g.current_color pv = false := by
    simp [play_rejects]
  have hmem : ("wild", w) ∈ handsGet g.hands uid := by simpa using hheld
  have hcolm : a ∈ COLORS := by simpa using hcol
  unfold uno_play_core check_and_play
  rcases hw with hw | hw <;> subst hw <;> simp [hst, hturn, hcolm, hmem, htop, hrej]

/-- C2 — Play legality.  Once the session/turn/possession validations
have passed, a candidate card is rejected as illegal exactly when the
spec's §4.1 predicate fails: the color is compared against the session's
`current_color` (here `tc`) and the rank against the pile top's rank
(`pv`), never against the top card's own stored color (`pc` stays
universally quantified and does not occur in the right-hand side, so the
rule applies identically when the top card is a declared-color wild); a
wild card is always accepted. -/
theorem play_legality_iff (g : Game) (uid : Nat) (now : Nat) (tc pc pv : String)
    (hst : g.started = true)
    (hturn : g.players[g.current]? = some uid)
    (hcc : g.current_color = some tc)
    (htop : g.pile.getLast? = some (pc, pv)) :
    (∀ c v, c ≠ "wild" → c ≠ "wild4" →
      (handsGet g.hands uid).contains (c, v) = true →
      (uno_play_core g uid [c, v] now ≠ PlayResult.err PlayError.illegalPlay ↔
        spec_playable (c, v) tc pv = true))
    ∧ (∀ w a, (w = "wild" ∨ w = "wild4") → COLORS.contains a = true →
      (handsGet g.hands uid).contains ("wild", w) = true →
      (uno_play_core g uid [w, a] now ≠ PlayResult.err PlayError.illegalPlay ↔
        spec_playable ("wild", w) tc pv = true)) := by
  constructor
  · intro c v hc1 hc2 hheld
    rw [uno_play_core_nonwild g uid now c v pc pv hst hturn hc1 hc2 hheld htop]
    rw [hcc, play_rejects_eq_not_spec]
    by_cases hs : spec_playable (c, v) tc pv = true
    · simp only [hs, Bool.not_true, if_false, Bool.false_eq_true]
      simp only [iff_true]
      exact play_card_ne_err _ _ _ _ _ _
    · have hs' : spec_playable (c, v) tc pv = false := by
        cases hq : spec_playable (c, v) tc pv
        · rfl
        · exact absurd hq hs
      simp [hs']
  · intro w a hw hcol hheld
    rw [uno_play_core_wild g uid now w a pc pv hst hturn hw hcol hheld htop]
    have : spec_playable ("wild", w) tc pv = true := by simp [spec_playable]
    simp only [this, iff_true]
    exact play_card_ne_err _ _ _ _ _ _

/-- A small started two-player session used to instantiate theorems with
hypotheses: player 1 to act, current color red, a red 0 on the pile. -/
def gW : Game :=
  { players := [1, 2]
    hands := [(1, [("red", "1"), ("red", "reverse"), ("blue", "3")]), (2, [("green", "2")])]
    deck := [("yellow", "4"), ("yellow", "5")]
    pile := [("red", "0")]
    current := 0
    direction := 1
    current_color := some "red"
    started := true
    last_active := 0 }

theorem play_legality_iff_app :
    uno_play_core gW 1 ["red", "1"] 3 ≠ PlayResult.err PlayError.illegalPlay ↔
      spec_playable ("red", "1") "red" "0" = true :=
  (play_legality_iff gW 1 3 "red" "red" "0" rfl rfl rfl rfl).1 "red" "1"
    (by decide) (by decide) (by decide)

/-- C3 — All-or-nothing validation.  Whenever a `play` invocation reports
an error (no session, not started, not the caller's turn, bad or missing
arguments or declared color, card not held, or a failed legality check),
the in-memory store, the stats file and the games file are all exactly
as before the call: every validation in `uno_play` happens before the
first mutating statement. -/
theorem play_error_leaves_state_unchanged (games : Games) (stats : Stats) (file : Games)
    (cid : Int) (uid : Nat) (args : List String) (now : Nat) (e : PlayError)
    (h : (uno_play_full games stats file cid uid args now).outcome = PlayOutcome.err e) :
    uno_play_full games stats file cid uid args now = ⟨PlayOutcome.err e, games, stats, file⟩ := by
  unfold uno_play_full at h ⊢
  cases hg : gamesGet games cid with
  | none =>
    simp only [hg] at h ⊢
    simp only [PlayOutcome.err.injEq] at h
    subst h
    rfl
  | some g =>
    cases hr : uno_play_core g uid args now with
    | err e2 =>
      simp only [hg, hr] at h ⊢
      simp only [PlayOutcome.err.injEq] at h
      subst h
      rfl
    | crashed g' => simp [hg, hr] at h
    | won g' => simp [hg, hr] at h
    | ok g' => simp [hg, hr] at h

theorem play_error_leaves_state_unchanged_app :
    uno_play_full [] [] [] 0 0 [] 0 = ⟨PlayOutcome.err PlayError.notRunning, [], [], []⟩ :=
  play_error_leaves_state_unchanged [] [] [] 0 0 [] 0 PlayError.notRunning rfl

/-- C10 — A play whose argument list has a single token that is neither
`wild` nor `wild4` hits the `args[1]` access in the card parse
(`uno.py` line 428) and raises `IndexError` before any mutation: the
store, stats and file are unchanged. -/
theorem play_one_token_nonwild_unchanged (games : Games) (stats : Stats) (file : Games)
    (cid : Int) (uid now : Nat) (g : Game) (a0 : String)
    (hg : gamesGet games cid = some g)
    (hst : g.started = true)
    (hturn : g.players[g.current]? = some uid)
    (h1 : a0 ≠ "wild") (h2 : a0 ≠ "wild4") :
    uno_play_full games stats file cid uid [a0] now =
      ⟨PlayOutcome.err PlayError.argIndexError, games, stats, file⟩ := by
  have e1 : (a0 == "wild") = false := beq_eq_false_iff_ne.mpr h1
  have e2 : (a0 == "wild4") = false := beq_eq_false_iff_ne.mpr h2
  have hcore : uno_play_core g uid [a0] now = PlayResult.err PlayError.argIndexError := by
    unfold uno_play_core
    simp [hst, hturn, e1, e2]
  unfold uno_play_full
  simp [hg, hcore]

theorem play_one_token_nonwild_unchanged_app :
    uno_play_full [(1, gW)] [] [] 1 1 ["red"] 4 =
      ⟨PlayOutcome.err PlayError.argIndexError, [(1, gW)], [], []⟩ :=
  play_one_token_nonwild_unchanged [(1, gW)] [] [] 1 1 4 gW "red" rfl rfl rfl
    (by decide) (by decide)

/-- C9 — Reverse effect.  A legal reverse play flips the direction to its
negation; with exactly 2 players the turn then advances twice in the new
direction, so `current` is unchanged from before the play; with any
other player count it advances once in the new direction. -/
theorem play_reverse_flips_direction (g : Game) (uid now : Nat) (c v pc pv : String)
    (hst : g.started = true)
    (hturn : g.players[g.current]? = some uid)
    (hc1 : c ≠ "wild") (hc2 : c ≠ "wild4") (hv : v = "reverse")
    (hheld : (handsGet g.hands uid).contains (c, v) = true)
    (htop : g.pile.getLast? = some (pc, pv))
    (hlegal : play_rejects (c, v) g.current_color pv = false)
    (hcur : g.current < g.players.length)
    (hdir : g.direction = 1 ∨ g.direction = -1) :
    ∃ g', (uno_play_core g uid [c, v] now = PlayResult.won g'
            ∨ uno_play_core g uid [c, v] now = PlayResult.ok g')
      ∧ g'.direction = -g.direction
      ∧ (g.players.length = 2 → g'.current = g.current)
      ∧ (g.players.length ≠ 2 →
          g'.current = (((g.current : Int) + -g.direction).emod (g.players.length : Int)).toNat) := by
  subst hv
  have hred : uno_play_core g uid [c, "reverse"] now = play_card g uid (c, "reverse") c now := by
    rw [uno_play_core_nonwild g uid now c "reverse" pc pv hst hturn hc1 hc2 hheld htop, hlegal]
    simp
  rw [hred]
  unfold play_card
  dsimp only
  rw [show (("reverse" : String) == "skip") = false from by decide]
  rw [show (("reverse" : String) == "reverse") = true from by decide]
  simp only [Bool.false_eq_true, if_false, if_true]
  refine ⟨_, finish_play_cases _ _, ?_, ?_, ?_⟩
  · split <;> exact mul_neg_one _
  · intro hl
    rw [show ((g.players.length == 2) = (2 == 2)) from by rw [hl]]
    simp only [beq_self_eq_true, if_true]
    simp only [advance_turn, hl]
    rcases hdir with hd | hd <;> rw [hd] <;>
      rcases (by omega : g.current = 0 ∨ g.current = 1) with hc | hc <;> rw [hc] <;> decide
  · intro hne
    rw [show ((g.players.length == 2) = false) from beq_eq_false_iff_ne.mpr hne]
    simp only [Bool.false_eq_true, if_false]
    simp [advance_turn, mul_neg_one]

theorem play_reverse_flips_direction_app :
    ∃ g', (uno_play_core gW 1 ["red", "reverse"] 6 = PlayResult.won g'
            ∨ uno_play_core gW 1 ["red", "reverse"] 6 = PlayResult.ok g')
      ∧ g'.direction = -gW.direction
      ∧ (gW.players.length = 2 → g'.current = gW.current)
      ∧ (gW.players.length ≠ 2 →
          g'.current = (((gW.current : Int) + -gW.direction).emod (gW.players.length : Int)).toNat) :=
  play_reverse_flips_direction gW 1 6 "red" "reverse" "red" "0" rfl rfl
    (by decide) (by decide) rfl (by decide) rfl (by decide) (by decide) (Or.inl rfl)

theorem getLast?_dropLast_append (l : List Card) (a : Card) (h : l.getLast? = some a) :
    l.dropLast ++ [a] = l := by
  have hne : l ≠ [] := by
    rintro rfl
    simp at h
  have h2 : l.getLast hne = a := by
    have hx := List.getLast?_eq_getLast l hne
    rw [h] at hx
    exact (Option.some_inj.mp hx).symm
  rw [← h2]
  exact List.dropLast_append_getLast hne

/-- C7 — Reshuffle correctness of `uno_draw`.  With an empty deck and at
least two cards in the pile, the draw succeeds: every pile card except
the top is moved into the deck (shuffled — the new deck plus the drawn
card is a permutation of the old pile without its top), exactly the
former top card remains as the whole pile, the caller's hand grows by
the one card popped from the new deck, and the turn advances exactly one
step; the direction is untouched. -/
theorem draw_empty_deck_reshuffles_ok (shuffle : List Card → List Card) (g : Game)
    (uid now : Nat) (t : Card) (h0 : List Card)
    (hperm : ∀ l, (shuffle l).Perm l)
    (hst : g.started = true)
    (hturn : g.players[g.current]? = some uid)
    (hdeck : g.deck = [])
    (hpile : 2 ≤ g.pile.length)
    (htop : g.pile.getLast? = some t)
    (hhand : alistGet g.hands uid = some h0) :
    ∃ card g', uno_draw_core shuffle g uid now = DrawResult.ok card g'
      ∧ g'.pile = [t]
      ∧ alistGet g'.hands uid = some (h0 ++ [card])
      ∧ (g'.deck ++ [card]).Perm g.pile.dropLast
      ∧ g'.current = (((g.current : Int) + g.direction).emod (g.players.length : Int)).toNat
      ∧ g'.direction = g.direction := by
  have hL : (shuffle g.pile.dropLast).length = g.pile.length - 1 := by
    rw [(hperm _).length_eq, List.length_dropLast]
  have hLne : shuffle g.pile.dropLast ≠ [] := by
    intro hnil
    rw [hnil] at hL
    simp at hL
    omega
  have hsome : (shuffle g.pile.dropLast).getLast?.isSome := by
    rw [List.getLast?_isSome]
    exact hLne
  obtain ⟨card, hcard⟩ := Option.isSome_iff_exists.mp hsome
  have hres : uno_draw_core shuffle g uid now =
      DrawResult.ok card
        (advance_turn
          { g with
            deck := (shuffle g.pile.dropLast).dropLast,
            pile := [t],
            hands := handsSet g.hands uid (h0 ++ [card]),
            last_active := now }) := by
    unfold uno_draw_core
    simp [hst, hturn, hdeck, htop, hcard, hhand]
  refine ⟨card, _, hres, rfl, ?_, ?_, rfl, rfl⟩
  · exact alistGet_set_self _ _ _
  · show ((shuffle g.pile.dropLast).dropLast ++ [card]).Perm g.pile.dropLast
    rw [getLast?_dropLast_append _ _ hcard]
    exact hperm _

/-- The session of `gW` with an exhausted deck and a two-card pile, used
to instantiate the reshuffle theorem. -/
def gW7 : Game :=
  { gW with deck := [], pile := [("red", "0"), ("blue", "2")] }

theorem draw_empty_deck_reshuffles_ok_app :
    ∃ card g', uno_draw_core id gW7 1 8 = DrawResult.ok card g'
      ∧ g'.pile = [("blue", "2")]
      ∧ alistGet g'.hands 1 = some ([("red", "1"), ("red", "reverse"), ("blue", "3")] ++ [card])
      ∧ (g'.deck ++ [card]).Perm gW7.pile.dropLast
      ∧ g'.current = (((gW7.current : Int) + gW7.direction).emod (gW7.players.length : Int)).toNat
      ∧ g'.direction = gW7.direction :=
  draw_empty_deck_reshuffles_ok id gW7 1 8 ("blue", "2")
    [("red", "1"), ("red", "reverse"), ("blue", "3")]
    (fun l => List.Perm.refl l) rfl rfl rfl (by decide) rfl rfl

theorem statsGet_statsIncr (stats : Stats) (cid : Int) (uid : Nat) :
    statsGet (statsIncr stats cid uid) cid uid = statsGet stats cid uid + 1 := by
  unfold statsGet statsIncr
  dsimp only
  rw [alistGet_set_self]
  simp only [Option.getD_some]
  rw [alistGet_set_self]
  simp

theorem finish_play_ok (uid : Nat) (g g' : Game) (h : finish_play uid g = .ok g') :
    (handsGet g'.hands uid).isEmpty = false := by
  unfold finish_play at h
  by_cases hc : (handsGet g.hands uid).isEmpty = true
  · rw [if_pos hc] at h
    cases h
  · rw [if_neg hc] at h
    cases h
    cases hq : (handsGet g.hands uid).isEmpty
    · rfl
    · exact absurd hq hc

theorem draw_penalty_ok (uid n : Nat) (g1 : Game) (g' : Game)
    (h : draw_penalty uid n g1 = .ok g') : (handsGet g'.hands uid).isEmpty = false := by
  unfold draw_penalty at h
  dsimp only at h
  split at h
  · cases h
  · split at h
    · cases h
    · split at h
      · cases h
      · exact finish_play_ok _ _ _ h

theorem play_card_ok (g : Game) (uid : Nat) (card : Card) (chosen : String) (now : Nat)
    (g' : Game) (h : play_card g uid card chosen now = .ok g') :
    (handsGet g'.hands uid).isEmpty = false := by
  unfold play_card at h
  dsimp only at h
  split at h
  · exact finish_play_ok _ _ _ h
  · split at h
    · exact finish_play_ok _ _ _ h
    · split at h
      · exact draw_penalty_ok _ _ _ _ h
      · split at h
        · exact draw_penalty_ok _ _ _ _ h
        · exact finish_play_ok _ _ _ h

theorem check_and_play_ok (g : Game) (uid : Nat) (card : Card) (chosen : String) (now : Nat)
    (g' : Game) (h : check_and_play g uid card chosen now = .ok g') :
    (handsGet g'.hands uid).isEmpty = false := by
  unfold check_and_play at h
  split at h
  · cases h
  · split at h
    · cases h
    · split at h
      · cases h
      · exact play_card_ok _ _ _ _ _ _ h

theorem uno_play_core_ok (g : Game) (uid : Nat) (args : List String) (now : Nat) (g' : Game)
    (h : uno_play_core g uid args now = .ok g') : (handsGet g'.hands uid).isEmpty = false := by
  unfold uno_play_core at h
  split at h
  · cases h
  · split at h
    · cases h
    · split at h
      · cases h
      · split at h
        · cases h
        · split at h
          · split at h
            · cases h
            · split at h
              · cases h
              · exact check_and_play_ok _ _ _ _ _ _ h
          · split at h
            · cases h
            · exact check_and_play_ok _ _ _ _ _ _ h


/-- C8 (amended) — Win path.  For a session found in the store, a play
that completes without an uncaught exception empties the acting
player's stored hand exactly when the engine reports `won` (second
conjunct: a normally completed play reports `ok` only with a non-empty
hand).  Whenever `won` is reported, the full handler deletes the
session from the store — so a subsequent `status` for that chat finds
no session and no further turn advancement can occur — and increments
that player's win counter for that chat in the stats ledger by exactly
one, creating the entry if absent.  A draw2/wild4 play of the last card
over a too-short deck crashes before the win check and is excluded; see
the counterexample to the unamended claim. -/
theorem play_win_records_and_deletes (games : Games) (stats : Stats) (file : Games)
    (cid : Int) (uid : Nat) (args : List String) (now : Nat) (g : Game)
    (hg : gamesGet games cid = some g) :
    (∀ g', uno_play_core g uid args now = PlayResult.won g' →
      (uno_play_full games stats file cid uid args now).outcome = PlayOutcome.won
        ∧ (uno_play_full games stats file cid uid args now).games = gamesRemove games cid
        ∧ uno_status (gamesRemove games cid) cid = none
        ∧ statsGet (uno_play_full games stats file cid uid args now).stats cid uid
            = statsGet stats cid uid + 1
        ∧ (handsGet g'.hands uid).isEmpty = true)
      ∧ (∀ g2, uno_play_core g uid args now = PlayResult.ok g2 →
        (handsGet g2.hands uid).isEmpty = false) := by
  constructor
  · intro g' hw
    have hfull : uno_play_full games stats file cid uid args now =
        ⟨PlayOutcome.won, gamesRemove games cid, statsIncr stats cid uid,
          save_games (gamesRemove games cid) file⟩ := by
      unfold uno_play_full
      simp [hg, hw]
    refine ⟨?_, ?_, ?_, ?_, uno_play_core_won g uid args now g' hw⟩
    · rw [hfull]
    · rw [hfull]
    · unfold uno_status gamesGet gamesRemove
      rw [alistGet_remove_self]
      rfl
    · rw [hfull]
      exact statsGet_statsIncr stats cid uid
  · intro g2 hok
    exact uno_play_core_ok g uid args now g2 hok

/-- A started two-player session in which player 1 holds a single legal
card, so playing it wins. -/
def gW8 : Game :=
  { players := [1, 2]
    hands := [(1, [("red", "1")]), (2, [("green", "2")])]
    deck := [("yellow", "4")]
    pile := [("red", "0")]
    current := 0
    direction := 1
    current_color := some "red"
    started := true
    last_active := 0 }

/-- The session value produced by player 1's winning play on `gW8`. -/
def gW8won : Game :=
  { players := [1, 2]
    hands := [(1, []), (2, [("green", "2")])]
    deck := [("yellow", "4")]
    pile := [("red", "0"), ("red", "1")]
    current := 1
    direction := 1
    current_color := some "red"
    started := true
    last_active := 3 }

/-- The session value produced by player 1's non-winning play of the red 1
on `gW`. -/
def gWok : Game :=
  { players := [1, 2]
    hands := [(1, [("red", "reverse"), ("blue", "3")]), (2, [("green", "2")])]
    deck := [("yellow", "4"), ("yellow", "5")]
    pile := [("red", "0"), ("red", "1")]
    current := 1
    direction := 1
    current_color := some "red"
    started := true
    last_active := 3 }

theorem play_win_records_and_deletes_app :
    ((uno_play_full [(7, gW8)] [] [] 7 1 ["red", "1"] 3).outcome = PlayOutcome.won
      ∧ (uno_play_full [(7, gW8)] [] [] 7 1 ["red", "1"] 3).games = gamesRemove [(7, gW8)] 7
      ∧ uno_status (gamesRemove [(7, gW8)] 7) 7 = none
      ∧ statsGet (uno_play_full [(7, gW8)] [] [] 7 1 ["red", "1"] 3).stats 7 1
          = statsGet [] 7 1 + 1
      ∧ (handsGet gW8won.hands 1).isEmpty = true)
      ∧ (handsGet gWok.hands 1).isEmpty = false :=
  ⟨(play_win_records_and_deletes [(7, gW8)] [] [] 7 1 ["red", "1"] 3 gW8 rfl).1 gW8won rfl,
   (play_win_records_and_deletes [(1, gW)] [] [] 1 1 ["red", "1"] 3 gW rfl).2 gWok rfl⟩

/-- Counterexample to C4: `uno_start` on a chat that already has a started
session does not fail and does not leave it unchanged — the stored
session afterwards is the fresh unstarted one (its `started` flag is
`false` although the pre-existing session had `started = true`). -/
theorem start_overwrites_existing_session :
    ((gamesGet (uno_start id [(1, gW)] [(1, gW)] 1 9).1 1).map Game.started) = some false
      ∧ gW.started = true :=
  ⟨rfl, rfl⟩

/-- C4 (amended) — `uno_start` never fails: it unconditionally replaces
whatever session the chat had with a fresh unstarted one (empty players,
hands and pile, a full freshly shuffled deck, index 0, direction 1, no
current color). -/
theorem start_replaces_session_with_fresh (shuffle : List Card → List Card)
    (games file : Games) (cid : Int) (now : Nat) :
    gamesGet (uno_start shuffle games file cid now).1 cid = some (freshSession shuffle now)
      ∧ (freshSession shuffle now).started = false ∧ (freshSession shuffle now).players = [] :=
  ⟨alistGet_set_self games cid (freshSession shuffle now), rfl, rfl⟩

/-- Counterexample to C6: deleting the last live session via `uno_reset`
empties the in-memory store, so `save_games` skips the durable write and
the games file still holds the deleted session; a recovering process
loads it right back (resurrection). -/
theorem reset_last_session_resurrects :
    (uno_reset [(1, gW)] [(1, gW)] 1).games = []
      ∧ load_games (uno_reset [(1, gW)] [(1, gW)] 1).file = [(1, gW)] :=
  ⟨rfl, rfl⟩

/-- Outcome reported by a full `uno_draw` invocation. -/
inductive DrawFullOutcome
  | err : PlayError → DrawFullOutcome
  | crashed
  | ok
deriving Repr, DecidableEq

/-- State of the world after a full `uno_draw` invocation: the reported
outcome, the in-memory store and the games file. -/
structure DrawFullResult where
  outcome : DrawFullOutcome
  games : Games
  file : Games
deriving Repr, DecidableEq

/-- The full `uno_draw` handler (`uno.py` lines 504-544) over the store
and the games file.  Crucially, `save_games()` runs at line 531 BEFORE
`advance_turn(game)` at line 536: the durable write holds the session
with the drawn card but with the pre-advance `current` index, and the
in-memory store then advances without another save.  Crashes (pile pop
on an empty pile, deck pop on a still-empty deck after reshuffling a
singleton pile, missing hand entry) raise before line 531, so nothing
is written and the store keeps the mutations performed so far. -/
def uno_draw_full (shuffle : List Card → List Card) (games : Games) (file : Games)
    (cid : Int) (uid now : Nat) : DrawFullResult :=
  match gamesGet games cid with
  | none => ⟨.err .notRunning, games, file⟩
  | some g =>
    if !g.started then ⟨.err .notRunning, games, file⟩
    else
      match g.players[g.current]? with
      | none => ⟨.err .playersIndexError, games, file⟩
      | some p =>
        if p != uid then ⟨.err .notYourTurn, games, file⟩
        else
          match (if g.deck.isEmpty then
                   match g.pile.getLast? with
                   | none => none
                   | some last => some { g with deck := shuffle g.pile.dropLast, pile := [last] }
                 else some g) with
          | none => ⟨.crashed, games, file⟩
          | some g1 =>
            match g1.deck.getLast? with
            | none => ⟨.crashed, alistSet games cid g1, file⟩
            | some card =>
              match alistGet g1.hands uid with
              | none => ⟨.crashed, alistSet games cid { g1 with deck := g1.deck.dropLast }, file⟩
              | some h =>
                let gPre : Game :=
                  { g1 with
                    deck := g1.deck.dropLast,
                    hands := handsSet g1.hands uid (h ++ [card]),
                    last_active := now }
                ⟨.ok, alistSet (alistSet games cid gPre) cid (advance_turn gPre),
                  save_games (alistSet games cid gPre) file⟩

theorem alistSet_isEmpty_false {α β : Type} [BEq α] (l : List (α × β)) (k : α) (v : β) :
    (alistSet l k v).isEmpty = false := by
  cases l with
  | nil => rfl
  | cons p rest =>
    obtain ⟨a, b⟩ := p
    unfold alistSet
    split <;> rfl

theorem save_games_set (games file : Games) (cid : Int) (g : Game) :
    save_games (alistSet games cid g) file = alistSet games cid g := by
  unfold save_games
  rw [alistSet_isEmpty_false]
  simp

theorem uno_draw_full_ok_save_stale (shuffle : List Card → List Card) (games file : Games)
    (cid : Int) (uid now : Nat) (r : DrawFullResult)
    (hr : uno_draw_full shuffle games file cid uid now = r)
    (hok : r.outcome = DrawFullOutcome.ok) :
    ∃ gPre, gamesGet r.file cid = some gPre
      ∧ gamesGet r.games cid = some (advance_turn gPre) := by
  unfold uno_draw_full at hr
  split at hr
  · subst hr
    simp at hok
  · split at hr
    · subst hr
      simp at hok
    · split at hr
      · subst hr
        simp at hok
      · split at hr
        · subst hr
          simp at hok
        · split at hr
          · subst hr
            simp at hok
          · split at hr
            · subst hr
              simp at hok
            · split at hr
              · subst hr
                simp at hok
              · subst hr
                dsimp only
                refine ⟨_, ?_, alistGet_set_self _ _ _⟩
                rw [save_games_set]
                exact alistGet_set_self _ _ _

/-- C6 (amended) — Durable writes reflect the store only at the moment
`save_games` is called, and are skipped on an empty store.  For
`uno_reset`: the file equals the post-deletion store when that store is
still non-empty, and keeps its stale contents when the deletion emptied
the store — so deleting the last live session is not persisted and
recovery resurrects it (`reset_last_session_resurrects`).  For
`uno_draw`: a completed draw saves BEFORE the turn advances, so the
file holds the pre-advance session while the in-memory store holds the
advanced one — durable storage disagrees with the store on `current`
even though both hold the session. -/
theorem reset_and_draw_persistence (shuffle : List Card → List Card) (games file : Games)
    (cid : Int) (uid now : Nat) :
    ((gamesGet games cid).isSome = true →
        (uno_reset games file cid).games = gamesRemove games cid)
      ∧ ((gamesGet games cid).isSome = true → gamesRemove games cid ≠ [] →
        (uno_reset games file cid).file = gamesRemove games cid)
      ∧ ((gamesGet games cid).isSome = true → gamesRemove games cid = [] →
        (uno_reset games file cid).file = file)
      ∧ ((uno_draw_full shuffle games file cid uid now).outcome = DrawFullOutcome.ok →
        ∃ gPre, gamesGet (uno_draw_full shuffle games file cid uid now).file cid = some gPre
          ∧ gamesGet (uno_draw_full shuffle games file cid uid now).games cid
              = some (advance_turn gPre)) := by
  refine ⟨?_, ?_, ?_,
    fun hok => uno_draw_full_ok_save_stale shuffle games file cid uid now _ rfl hok⟩
  · intro h
    unfold uno_reset
    simp [h]
  · intro h hne
    have hie : (gamesRemove games cid).isEmpty = false := by
      cases hq : (gamesRemove games cid).isEmpty
      · rfl
      · exact absurd (List.isEmpty_iff.mp hq) hne
    unfold uno_reset save_games
    simp [h, hie]
  · intro h he
    unfold uno_reset save_games
    simp [h, List.isEmpty_iff.mpr he]

theorem reset_and_draw_persistence_app :
    ((uno_reset [(1, gW), (2, gW8)] [] 1).file = gamesRemove [(1, gW), (2, gW8)] 1)
      ∧ (∃ gPre, gamesGet (uno_draw_full id [(1, gW)] [] 1 1 11).file 1 = some gPre
          ∧ gamesGet (uno_draw_full id [(1, gW)] [] 1 1 11).games 1 = some (advance_turn gPre))
      ∧ (gamesGet (uno_draw_full id [(1, gW)] [] 1 1 11).file 1).map Game.current = some 0
      ∧ (gamesGet (uno_draw_full id [(1, gW)] [] 1 1 11).games 1).map Game.current = some 1 :=
  ⟨(reset_and_draw_persistence id [(1, gW), (2, gW8)] [] 1 1 11).2.1 rfl (by decide),
   (reset_and_draw_persistence id [(1, gW)] [] 1 1 11).2.2.2 rfl,
   rfl, rfl⟩

/-- Whether a play aborted with an uncaught exception after mutation had
already begun. -/
def isCrashed : PlayResult → Bool
  | .crashed _ => true
  | _ => false

/-- The card total of the session carried by a play result, when any. -/
def resultTotal : PlayResult → Option Nat
  | .err _ => none
  | .crashed g => some (totalCards g)
  | .won g => some (totalCards g)
  | .ok g => some (totalCards g)

/-- One player's stored hand in the session carried by a play result. -/
def resultHand (uid : Nat) : PlayResult → Option (List Card)
  | .err _ => none
  | .crashed g => alistGet g.hands uid
  | .won g => alistGet g.hands uid
  | .ok g => alistGet g.hands uid

/-- The cards of the full deck not distributed to the hands, deck and pile
top of the short-deck scenario below. -/
def pileRestEx : List Card :=
  [(("red" : String), ("draw2" : String)), ("red", "1"), ("blue", "1"), ("green", "1"),
    ("red", "0")].foldl listRemoveFirst create_deck_cards

/-- A started two-player session holding all 108 cards, with exactly ONE
card left in the deck, in which player 1 may legally play a draw2: the
state `uno_draw` would reshuffle from, but `uno_play`'s penalty path
does not. -/
def gEx : Game :=
  { players := [1, 2]
    hands := [(1, [("red", "draw2"), ("red", "1")]), (2, [("blue", "1")])]
    deck := [("green", "1")]
    pile := pileRestEx ++ [("red", "0")]
    current := 0
    direction := 1
    current_color := some "red"
    started := true
    last_active := 0 }

/-- The concrete state `gEx` distributes exactly the full 108-card deck:
deck, pile and the two hands together are a permutation of
`create_deck_cards`. -/
theorem gEx_cards_perm :
    (gEx.deck ++ gEx.pile ++ ((gEx.hands.map Prod.snd).flatten)).Perm create_deck_cards := by
  decide

/-- C1 is violated by the code: in the reachable 108-card state `gEx`
(deck holds one card), the current player legally plays a draw2; the
victim-draw list comprehension pops the lone deck card and then raises
`IndexError` on the second pop, so the popped card is neither in the
deck nor in any hand nor in the pile — the session that stays in memory
tracks only 107 cards. -/
theorem draw2_short_deck_loses_card :
    totalCards gEx = 108
      ∧ isCrashed (uno_play_core gEx 1 ["red", "draw2"] 5) = true
      ∧ resultTotal (uno_play_core gEx 1 ["red", "draw2"] 5) = some 107 :=
  ⟨rfl, rfl, rfl⟩

/-- C5 is violated by the code: deck plus pile hold plenty of cards
(105 ≥ 2), yet the draw2 penalty path crashes instead of reshuffling the
pile into the deck, and the victim's hand does not grow at all. -/
theorem draw2_short_deck_no_reshuffle :
    2 ≤ gEx.deck.length + gEx.pile.length
      ∧ alistGet gEx.hands 2 = some [("blue", "1")]
      ∧ isCrashed (uno_play_core gEx 1 ["red", "draw2"] 5) = true
      ∧ resultHand 2 (uno_play_core gEx 1 ["red", "draw2"] 5) = some [("blue", "1")] :=
  ⟨by decide, rfl, rfl, rfl⟩

/-- A started two-player session holding all 108 cards in which the acting
player's LAST card is a draw2 while the deck holds a single card. -/
def gEx8 : Game :=
  { players := [1, 2]
    hands := [(1, [("red", "draw2")]), (2, [("red", "1"), ("blue", "1")])]
    deck := [("green", "1")]
    pile := pileRestEx ++ [("red", "0")]
    current := 0
    direction := 1
    current_color := some "red"
    started := true
    last_active := 0 }

/-- The state `gEx8` also distributes exactly the full 108-card deck. -/
theorem gEx8_cards_perm :
    (gEx8.deck ++ gEx8.pile ++ ((gEx8.hands.map Prod.snd).flatten)).Perm create_deck_cards := by
  decide

/-- Counterexample to C8 as stated: at `gEx8`, player 1's legal draw2 play
removes their last card — the stored hand becomes empty — but the
penalty pops crash on the 1-card deck before the win check at `uno.py`
line 484: the full handler reports the crash, the stats ledger is
untouched (no win recorded), and the session still exists, so a
subsequent `status` finds it. -/
theorem play_empty_hand_crash_no_win :
    resultHand 1 (uno_play_core gEx8 1 ["red", "draw2"] 5) = some []
      ∧ (uno_play_full [(3, gEx8)] [] [] 3 1 ["red", "draw2"] 5).outcome = PlayOutcome.crashed
      ∧ (uno_play_full [(3, gEx8)] [] [] 3 1 ["red", "draw2"] 5).stats = []
      ∧ (uno_status (uno_play_full [(3, gEx8)] [] [] 3 1 ["red", "draw2"] 5).games 3).isSome
          = true :=
  ⟨rfl, rfl, rfl, rfl⟩
